import Mathlib

/-!
Shallow embedding of the scoring and normalization core of the
food-health-rating application (`app.py`): ingredient normalization and
classification (`IngredientNormalizer`), nutrient parsing and per-100g
normalization (`NutrientNormalizer`), and the health scoring pipeline
(`HealthScorer`).  Python floats are modelled as rationals (`ℚ`), Python
dicts as association lists kept in insertion order, and Python `None` as
`Option`.
-/

namespace FoodApp

/-- `startsWithL pat s`: does the character list `s` start with `pat`? -/
def startsWithL : List Char → List Char → Bool
  | [], _ => true
  | _ :: _, [] => false
  | a :: as, b :: bs => (a == b) && startsWithL as bs

/-- `hasSub pat s`: does `pat` occur as a contiguous substring of `s`?
Models the Python containment test `pat in s` on strings. -/
def hasSub (pat : List Char) : List Char → Bool
  | [] => pat.isEmpty
  | c :: rest => startsWithL pat (c :: rest) || hasSub pat rest

/-- Python `pat in s` for strings. -/
def strIn (pat s : String) : Bool := hasSub pat.data s.data

/-- Python `str.lower()` (equivalent to core `String.toLower`, stated on the
character list). -/
def lowerStr (s : String) : String := ⟨s.data.map Char.toLower⟩

/-- Python `re.split(r'[,;]', s)` at the character level: cut at every
occurrence of a separator character, keeping empty pieces. -/
def splitChars (p : Char → Bool) : List Char → List (List Char)
  | [] => [[]]
  | c :: rest =>
    if p c then [] :: splitChars p rest
    else
      match splitChars p rest with
      | [] => [[c]]
      | piece :: pieces => (c :: piece) :: pieces

/-- `IngredientNormalizer.HARMFUL_ADDITIVES` (a Python set; only membership
of some element as a substring is ever used, so a list is a faithful model). -/
def HARMFUL_ADDITIVES : List String :=
  ["sodium nitrite", "sodium nitrate", "potassium nitrite", "potassium nitrate",
   "bha", "bht", "tbhq", "propyl gallate",
   "artificial colors", "red dye 40", "yellow 6", "blue 1",
   "high fructose corn syrup", "corn syrup solids"]

/-- `IngredientNormalizer.ULTRA_PROCESSED_MARKERS`. -/
def ULTRA_PROCESSED_MARKERS : List String :=
  ["modified starch", "hydrolyzed protein", "isolated protein",
   "artificial flavors", "natural flavors", "flavor enhancer",
   "emulsifier", "stabilizer", "thickener"]

/-- `IngredientNormalizer.BENEFICIAL_INGREDIENTS`. -/
def BENEFICIAL_INGREDIENTS : List String :=
  ["whole grain", "whole wheat", "oats", "quinoa", "brown rice",
   "fiber", "protein", "vitamins", "minerals"]

/-- Does some term of `terms` occur as a substring of `s`?  This is the
`for term in SET: if term in ingredient_lower: ... break` loop of
`classify_ingredients`: only whether a match exists is observable. -/
def matchesAny (terms : List String) (s : String) : Bool :=
  terms.any (fun t => strIn t s)

/-- The four category lists built by `IngredientNormalizer.classify_ingredients`. -/
structure Classification where
  harmful_additives : List String
  ultra_processed_markers : List String
  beneficial_ingredients : List String
  other : List String
deriving DecidableEq

/-- `IngredientNormalizer.classify_ingredients`: each ingredient is appended to
the first category (harmful → ultra-processed → beneficial → other) whose term
set matches its lower-cased form.  The Python loop appends in input order;
consing the head onto the classification of the tail preserves that order. -/
def classify_ingredients : List String → Classification
  | [] => ⟨[], [], [], []⟩
  | ing :: rest =>
    let cl := classify_ingredients rest
    let lo := lowerStr ing
    if matchesAny HARMFUL_ADDITIVES lo then
      { cl with harmful_additives := ing :: cl.harmful_additives }
    else if matchesAny ULTRA_PROCESSED_MARKERS lo then
      { cl with ultra_processed_markers := ing :: cl.ultra_processed_markers }
    else if matchesAny BENEFICIAL_INGREDIENTS lo then
      { cl with beneficial_ingredients := ing :: cl.beneficial_ingredients }
    else
      { cl with other := ing :: cl.other }

/-- Python `str.strip()`: drop whitespace from both ends. -/
def stripChars (s : List Char) : List Char :=
  ((s.dropWhile Char.isWhitespace).reverse.dropWhile Char.isWhitespace).reverse

/-- Drop characters up to and including the first `')'`; `none` if there is
no `')'`.  Helper for the regex `\([^)]*\)`. -/
def dropThroughRParen : List Char → Option (List Char)
  | [] => none
  | c :: rest => if c == ')' then some rest else dropThroughRParen rest

/-- Fuelled worker for `removeParens` (fuel only forces termination: each step
consumes at least one character, so `s.length` fuel is always enough). -/
def removeParensFuel : Nat → List Char → List Char
  | 0, s => s
  | _ + 1, [] => []
  | n + 1, c :: rest =>
    if c == '(' then
      match dropThroughRParen rest with
      | some rest2 => removeParensFuel n rest2
      | none => c :: removeParensFuel n rest
    else c :: removeParensFuel n rest

/-- Python `re.sub(r'\([^)]*\)', '', s)`: repeatedly delete a `'('` together
with everything up to the first following `')'`; a `'('` with no later `')'`
is kept. -/
def removeParens (s : List Char) : List Char :=
  removeParensFuel s.length s

/-- Python `re.sub(r'\s+', ' ', s)`: replace each maximal run of whitespace
by a single space.  (Python `\s` also covers some exotic unicode whitespace;
`Char.isWhitespace` covers the ASCII whitespace relevant here.) -/
def collapseWs : List Char → List Char
  | [] => []
  | c :: rest =>
    if c.isWhitespace then
      match collapseWs rest with
      | [] => [' ']
      | d :: tail => if d == ' ' then d :: tail else ' ' :: d :: tail
    else c :: collapseWs rest

/-- The per-token cleanup in `normalize_ingredient_list`:
`strip`, remove parenthetical content, collapse whitespace, `strip`. -/
def cleanToken (t : String) : String :=
  ⟨stripChars (collapseWs (removeParens (stripChars t.data)))⟩

/-- `IngredientNormalizer.normalize_ingredient_list`: falsy (empty) input
yields `[]`; otherwise lower-case, split on `','` or `';'`, clean each token,
and keep tokens that are truthy and of length > 1. -/
def normalize_ingredient_list (raw_ingredients : String) : List String :=
  if raw_ingredients = "" then []
  else
    ((((splitChars (fun c => c == ',' || c == ';') (lowerStr raw_ingredients).data).map
        (fun piece => cleanToken ⟨piece⟩)).filter
          (fun t => !(t == "") && decide (1 < t.length))))

/-! ### NutrientNormalizer -/

/-- Dataclass `NutrientInfo`: the raw parsed value (per serving), its unit,
and the per-100g normalized value.  The dataclass field order is kept. -/
structure NutrientInfo where
  name : String
  value : ℚ
  unit : String
  per_100g : ℚ
deriving DecidableEq

/-- Numeric value of a list of decimal digit characters. -/
def digitsVal (ds : List Char) : ℕ :=
  ds.foldl (fun n c => 10 * n + (c.toNat - 48)) 0

/-- Python `re.search(r'(\d+\.?\d*)', s)` followed by `float(...)`: the first
(leftmost, greedy) decimal literal in `s`, as a rational; `none` when `s`
contains no digit. -/
def firstNumber : List Char → Option ℚ
  | [] => none
  | c :: rest =>
    if c.isDigit then
      let intPart := (c :: rest).takeWhile Char.isDigit
      let afterInt := (c :: rest).dropWhile Char.isDigit
      match afterInt with
      | '.' :: rest3 =>
        let fracPart := rest3.takeWhile Char.isDigit
        some ((digitsVal intPart : ℚ) + (digitsVal fracPart : ℚ) / (10 ^ fracPart.length))
      | _ => some (digitsVal intPart)
    else firstNumber rest

/-- One alternation step of the regex `(mg|g|kcal|cal)` at a fixed position:
the alternatives are tried left to right. -/
def unitAt (s : List Char) : Option String :=
  if startsWithL "mg".data s then some "mg"
  else if startsWithL "g".data s then some "g"
  else if startsWithL "kcal".data s then some "kcal"
  else if startsWithL "cal".data s then some "cal"
  else none

/-- Python `re.search(r'(mg|g|kcal|cal)', s)`: leftmost match wins. -/
def firstUnit : List Char → Option String
  | [] => none
  | c :: rest =>
    match unitAt (c :: rest) with
    | some u => some u
    | none => firstUnit rest

/-- Python `key.lower().replace(' ', '_')`, the output-key normalization of
`normalize_nutrients`. -/
def normKey (k : String) : String :=
  ⟨(lowerStr k).data.map (fun c => if c == ' ' then '_' else c)⟩

/-- The body of the `normalize_nutrients` loop for a single raw entry:
parse the value (skipping the entry when no number is found), parse the unit
(defaulting to `"g"`), rescale to per 100g, and convert mg→g except for the
sodium/cholesterol keys. -/
def normalizeEntry (key value_str : String) (serving_size_g : ℚ) :
    Option (String × NutrientInfo) :=
  match firstNumber value_str.data with
  | none => none
  | some value =>
    let unit0 := (firstUnit (lowerStr value_str).data).getD "g"
    let per0 : ℚ := if serving_size_g > 0 then value / serving_size_g * 100 else value
    let exempt := lowerStr key == "sodium" || lowerStr key == "cholesterol"
    if unit0 == "mg" && !exempt then
      some (normKey key, ⟨key, value, "g", per0 / 1000⟩)
    else
      some (normKey key, ⟨key, value, unit0, per0⟩)

/-- Python dict assignment `m[k] = v`: overwrite in place when the key exists
(keeping its original position, as CPython dicts do), else append. -/
def insertA (m : List (String × NutrientInfo)) (k : String) (v : NutrientInfo) :
    List (String × NutrientInfo) :=
  if m.any (fun p => p.1 == k) then
    m.map (fun p => if p.1 == k then (k, v) else p)
  else m ++ [(k, v)]

/-- One iteration of the `normalize_nutrients` loop: a skipped entry leaves
the map unchanged, a parsed entry is stored under its normalized key. -/
def normStep (serving_size_g : ℚ) (m : List (String × NutrientInfo))
    (kv : String × String) : List (String × NutrientInfo) :=
  match normalizeEntry kv.1 kv.2 serving_size_g with
  | none => m
  | some (k, v) => insertA m k v

/-- `NutrientNormalizer.normalize_nutrients`: fold the raw entries in order
into an insertion-ordered map, skipping entries with no extractable number.
(The Python `try/except` never fires for the remaining operations, which are
all total.) -/
def normalize_nutrients (raw_nutrients : List (String × String))
    (serving_size_g : ℚ) : List (String × NutrientInfo) :=
  raw_nutrients.foldl (normStep serving_size_g) []

/-- Association-list lookup, modelling `k in dict` / `dict[k]` on a
Python dict with unique keys. -/
def lookupA (m : List (String × NutrientInfo)) (k : String) : Option NutrientInfo :=
  match m with
  | [] => none
  | (k', v) :: rest => if k' == k then some v else lookupA rest k

/-! ### HealthScorer -/

/-- Dataclass `ScoreDriver`.  The Python dataclass also carries an
`explanation : str` (a formatted message interpolating the measured value);
that display string is not modelled here — no property under study refers
to it. -/
structure ScoreDriver where
  factor : String
  impact : String
  score_delta : ℚ
  source : String
deriving DecidableEq

/-- The warning string appended by the sodium rule of `_score_nutrients`. -/
def sodiumWarning : String :=
  "High sodium content may contribute to elevated blood pressure"

/-- The warning string appended by the harmful-additives rule of
`_score_ingredients`. -/
def additiveWarning : String :=
  "Contains additives that some studies suggest may have negative health effects"

/-- `HealthScorer._score_nutrients`: straight-line accumulation of the five
nutrient rules (fiber, protein, sodium, saturated fat, sugars) in source
order; `score_delta +=` becomes a running sum and `drivers.append` a running
concatenation.  Only the sodium rule appends a warning. -/
def scoreNutrients (nutrients : List (String × NutrientInfo)) :
    ℚ × List ScoreDriver × List String :=
  let sd0 : ℚ := 0
  let (sd1, dr1) :=
    match lookupA nutrients "dietary_fiber" with
    | some ni =>
      if ni.per_100g ≥ 6 then
        let delta := min 10 (ni.per_100g * 1.5)
        (sd0 + delta, [(⟨"High Fiber Content", "positive", delta,
          "Dietary Guidelines for Americans 2020-2025"⟩ : ScoreDriver)])
      else (sd0, [])
    | none => (sd0, [])
  let (sd2, dr2) :=
    match lookupA nutrients "protein" with
    | some ni =>
      if ni.per_100g ≥ 12 then
        let delta := min 8 (ni.per_100g * 0.3)
        (sd1 + delta, dr1 ++ [(⟨"Good Protein Source", "positive", delta,
          "FDA Nutrition Facts Label Guidelines"⟩ : ScoreDriver)])
      else (sd1, dr1)
    | none => (sd1, dr1)
  let (sd3, dr3, w3) :=
    match lookupA nutrients "sodium" with
    | some ni =>
      let sodium_mg := ni.per_100g * 10
      if sodium_mg > 600 then
        let delta := -(min 15 ((sodium_mg - 600) * 0.01))
        (sd2 + delta, dr2 ++ [(⟨"High Sodium Content", "negative", delta,
          "American Heart Association Dietary Guidelines"⟩ : ScoreDriver)],
          [sodiumWarning])
      else (sd2, dr2, [])
    | none => (sd2, dr2, [])
  let (sd4, dr4) :=
    match lookupA nutrients "saturated_fat" with
    | some ni =>
      if ni.per_100g > 5 then
        let delta := -(min 12 (ni.per_100g * 1.5))
        (sd3 + delta, dr3 ++ [(⟨"High Saturated Fat", "negative", delta,
          "WHO Global Strategy on Diet, Physical Activity and Health"⟩ : ScoreDriver)])
      else (sd3, dr3)
    | none => (sd3, dr3)
  let (sd5, dr5) :=
    match lookupA nutrients "total_sugars" with
    | some ni =>
      if ni.per_100g > 15 then
        let delta := -(min 10 (ni.per_100g * 0.5))
        (sd4 + delta, dr4 ++ [(⟨"High Sugar Content", "negative", delta,
          "WHO Global Strategy on Diet, Physical Activity and Health"⟩ : ScoreDriver)])
      else (sd4, dr4)
    | none => (sd4, dr4)
  (sd5, dr5, w3)

/-- `HealthScorer._score_ingredients`: penalties/bonus computed from the
classification counts, accumulated in source order.  Only the
harmful-additives rule appends a warning. -/
def scoreIngredients (ingredients : List String) : ℚ × List ScoreDriver × List String :=
  let classification := classify_ingredients ingredients
  let harmful_count := classification.harmful_additives.length
  let (sd1, dr1, w1) :=
    if harmful_count > 0 then
      let delta := -(min 15 ((harmful_count : ℚ) * 5))
      ((delta : ℚ), [(⟨"Harmful Additives Present", "negative", delta,
        "EFSA Scientific Opinions on Food Additives"⟩ : ScoreDriver)],
        [additiveWarning])
    else (0, [], [])
  let processed_count := classification.ultra_processed_markers.length
  let (sd2, dr2) :=
    if processed_count > 3 then
      let delta := -(min 8 ((processed_count : ℚ) * 2))
      (sd1 + delta, dr1 ++ [(⟨"Highly Processed Food", "negative", delta,
        "Harvard T.H. Chan School of Public Health"⟩ : ScoreDriver)])
    else (sd1, dr1)
  let beneficial_count := classification.beneficial_ingredients.length
  let (sd3, dr3) :=
    if beneficial_count > 0 then
      let delta := min 10 ((beneficial_count : ℚ) * 3)
      (sd2 + delta, dr2 ++ [(⟨"Beneficial Ingredients", "positive", delta,
        "Dietary Guidelines for Americans 2020-2025"⟩ : ScoreDriver)])
    else (sd2, dr2)
  (sd3, dr3, w1)

/-- Dataclass `ProductData` (after `__post_init__`, which replaces `None`
containers by empty ones). -/
structure ProductData where
  barcode : Option String
  name : String
  brand : String
  ingredients : List String
  nutrients : List (String × NutrientInfo)
  serving_size_g : Option ℚ
  categories : List String

/-- Dataclass `HealthScore`. -/
structure HealthScore where
  overall_score : ℤ
  band : String
  drivers : List ScoreDriver
  evidence_sources : List String
  confidence : String
  warnings : List String

/-- The static evidence list `HealthScorer.sources` (set in `__init__`). -/
def sources : List String :=
  ["FDA Nutrition Facts Label Guidelines (2016)",
   "WHO Global Strategy on Diet, Physical Activity and Health (2004)",
   "Dietary Guidelines for Americans 2020-2025",
   "European Food Safety Authority (EFSA) Scientific Opinions",
   "American Heart Association Dietary Guidelines",
   "Harvard T.H. Chan School of Public Health Nutrition Source"]

/-- Python `int(x)` on a float: truncation toward zero. -/
def truncInt (q : ℚ) : ℤ := if q < 0 then ⌈q⌉ else ⌊q⌋

/-- Python truthiness of `product.barcode` (an `Optional[str]`):
`None` and the empty string are falsy. -/
def truthyOptStr : Option String → Bool
  | none => false
  | some s => !(s == "")

/-- `HealthScorer._calculate_confidence`. -/
def calculate_confidence (confidence_factors : List String) (p : ProductData) : String :=
  let score : ℕ :=
    (if confidence_factors.contains "nutrients" then 50 else 0)
    + (if confidence_factors.contains "ingredients" then 30 else 0)
    + (if truthyOptStr p.barcode then 10 else 0)
    + (if !(p.brand == "") then 10 else 0)
  if score ≥ 80 then "high"
  else if score ≥ 60 then "medium"
  else "low"

/-- `HealthScorer.score_product`: base score 50, plus the nutrient deltas when
the nutrient dict is truthy (non-empty) and the ingredient deltas when the
ingredient list is truthy, then `max(0, min(100, int(base_score)))` and the
band thresholds 80/65/50/35. -/
def score_product (p : ProductData) : HealthScore :=
  let base0 : ℚ := 50
  let (base1, drivers1, warnings1, cf1) :=
    if p.nutrients.isEmpty then
      (base0, ([] : List ScoreDriver), ([] : List String), ([] : List String))
    else
      let (ns, ndr, nw) := scoreNutrients p.nutrients
      (base0 + ns, ndr, nw, ["nutrients"])
  let (base2, drivers2, warnings2, cf2) :=
    if p.ingredients.isEmpty then (base1, drivers1, warnings1, cf1)
    else
      let (igs, idr, iw) := scoreIngredients p.ingredients
      (base1 + igs, drivers1 ++ idr, warnings1 ++ iw, cf1 ++ ["ingredients"])
  let final_score : ℤ := max 0 (min 100 (truncInt base2))
  let band : String :=
    if final_score ≥ 80 then "A"
    else if final_score ≥ 65 then "B"
    else if final_score ≥ 50 then "C"
    else if final_score ≥ 35 then "D"
    else "E"
  let confidence := calculate_confidence cf2 p
  ⟨final_score, band, drivers2, sources, confidence, warnings2⟩

/-! ### Claim-side definitions and concrete inputs

Definitions in this section follow the wording of the specification claims
(not the code); they exist to be compared against the code-derived
definitions above. -/

/-- The final score as claim C1 words it: `clamp(round(50 + sum of deltas),
0, 100)` with round-to-nearest (`round`), to be compared with the code's
truncation toward zero. -/
def claimRoundedScore (p : ProductData) : ℤ :=
  let nd : ℚ := if p.nutrients.isEmpty then 0 else (scoreNutrients p.nutrients).1
  let gd : ℚ := if p.ingredients.isEmpty then 0 else (scoreIngredients p.ingredients).1
  max 0 (min 100 (round (50 + nd + gd)))

/-- Claim C2's fiber rule: `dietary_fiber ≥ 6` gives `+min(10, 1.5·fiber)`,
a missing key contributes nothing. -/
def claimFiberDelta (n : List (String × NutrientInfo)) : ℚ :=
  match lookupA n "dietary_fiber" with
  | some ni => if ni.per_100g ≥ 6 then min 10 (1.5 * ni.per_100g) else 0
  | none => 0

/-- Claim C2's protein rule: `protein ≥ 12` gives `+min(8, 0.3·protein)`. -/
def claimProteinDelta (n : List (String × NutrientInfo)) : ℚ :=
  match lookupA n "protein" with
  | some ni => if ni.per_100g ≥ 12 then min 8 (0.3 * ni.per_100g) else 0
  | none => 0

/-- Claim C2's sodium rule: with `sodium = per_100g·10`, `sodium > 600`
gives `−min(15, 0.01·(sodium − 600))`. -/
def claimSodiumDelta (n : List (String × NutrientInfo)) : ℚ :=
  match lookupA n "sodium" with
  | some ni =>
    if ni.per_100g * 10 > 600 then -(min 15 (0.01 * (ni.per_100g * 10 - 600))) else 0
  | none => 0

/-- Claim C2's sodium warning trigger. -/
def claimSodiumFiresB (n : List (String × NutrientInfo)) : Bool :=
  match lookupA n "sodium" with
  | some ni => decide (ni.per_100g * 10 > 600)
  | none => false

/-- Claim C2's fiber rule trigger. -/
def claimFiberFiresB (n : List (String × NutrientInfo)) : Bool :=
  match lookupA n "dietary_fiber" with
  | some ni => decide (ni.per_100g ≥ 6)
  | none => false

/-- Claim C2's protein rule trigger. -/
def claimProteinFiresB (n : List (String × NutrientInfo)) : Bool :=
  match lookupA n "protein" with
  | some ni => decide (ni.per_100g ≥ 12)
  | none => false

/-- Claim C2's saturated-fat rule trigger. -/
def claimSatFatFiresB (n : List (String × NutrientInfo)) : Bool :=
  match lookupA n "saturated_fat" with
  | some ni => decide (ni.per_100g > 5)
  | none => false

/-- Claim C2's sugars rule trigger. -/
def claimSugarsFiresB (n : List (String × NutrientInfo)) : Bool :=
  match lookupA n "total_sugars" with
  | some ni => decide (ni.per_100g > 15)
  | none => false

/-- Claim C2's saturated-fat rule: `saturated_fat > 5` gives
`−min(12, 1.5·satfat)`. -/
def claimSatFatDelta (n : List (String × NutrientInfo)) : ℚ :=
  match lookupA n "saturated_fat" with
  | some ni => if ni.per_100g > 5 then -(min 12 (1.5 * ni.per_100g)) else 0
  | none => 0

/-- Claim C2's sugars rule: `total_sugars > 15` gives `−min(10, 0.5·sugars)`. -/
def claimSugarsDelta (n : List (String × NutrientInfo)) : ℚ :=
  match lookupA n "total_sugars" with
  | some ni => if ni.per_100g > 15 then -(min 10 (0.5 * ni.per_100g)) else 0
  | none => 0

/-- Order variant of `classify_ingredients` testing the beneficial set before
the ultra-processed set, used to examine C4's claimed order-independence. -/
def classifyBeneficialFirst : List String → Classification
  | [] => ⟨[], [], [], []⟩
  | ing :: rest =>
    let cl := classifyBeneficialFirst rest
    let lo := lowerStr ing
    if matchesAny HARMFUL_ADDITIVES lo then
      { cl with harmful_additives := ing :: cl.harmful_additives }
    else if matchesAny BENEFICIAL_INGREDIENTS lo then
      { cl with beneficial_ingredients := ing :: cl.beneficial_ingredients }
    else if matchesAny ULTRA_PROCESSED_MARKERS lo then
      { cl with ultra_processed_markers := ing :: cl.ultra_processed_markers }
    else
      { cl with other := ing :: cl.other }

/-- A product whose only triggered rule is the protein rule with a fractional
delta: protein per 100g is 12.5, so the accumulated base score is
50 + min(8, 12.5·0.3) = 53.75. -/
def pFrac : ProductData :=
  { barcode := none, name := "frac", brand := "",
    ingredients := [],
    nutrients := [("protein", ⟨"protein", 5, "g", 25/2⟩)],
    serving_size_g := some 40, categories := [] }

/-- An ingredient list carrying four ultra-processed markers and nothing
else. -/
def ultraIngredients : List String :=
  ["modified starch", "emulsifier", "stabilizer", "thickener"]

/-! ### Shared helper lemmas -/

/-- An empty nutrient map contributes nothing. -/
theorem scoreNutrients_nil : scoreNutrients [] = (0, [], []) := rfl

/-- An empty ingredient list contributes nothing. -/
theorem scoreIngredients_nil : scoreIngredients [] = (0, [], []) := rfl

/-- `score_product` always produces its score by clamping a truncated
rational base score, and its band by thresholding that clamped value. -/
theorem score_band_shape (p : ProductData) :
    ∃ q : ℚ, (score_product p).overall_score = max 0 (min 100 (truncInt q))
      ∧ (score_product p).band =
        (if max 0 (min 100 (truncInt q)) ≥ 80 then "A"
         else if max 0 (min 100 (truncInt q)) ≥ 65 then "B"
         else if max 0 (min 100 (truncInt q)) ≥ 50 then "C"
         else if max 0 (min 100 (truncInt q)) ≥ 35 then "D"
         else "E") := by
  rcases hsn : scoreNutrients p.nutrients with ⟨ns, ndr, nw⟩
  rcases hsi : scoreIngredients p.ingredients with ⟨igs, idr, iw⟩
  unfold score_product
  rw [hsn, hsi]
  cases hn : p.nutrients.isEmpty <;> cases hi : p.ingredients.isEmpty <;>
    simp only [hn, hi, Bool.false_eq_true, if_true, if_false, ite_true, ite_false] <;>
    exact ⟨_, rfl, rfl⟩

/-- A unit string returned by the regex `(mg|g|kcal|cal)` is one of the four
alternatives. -/
theorem firstUnit_mem (s : List Char) (u : String) (h : firstUnit s = some u) :
    u = "mg" ∨ u = "g" ∨ u = "kcal" ∨ u = "cal" := by
  induction s with
  | nil => simp [firstUnit] at h
  | cons c rest ih =>
    rw [firstUnit] at h
    rcases hu : unitAt (c :: rest) with _ | u'
    · rw [hu] at h
      exact ih h
    · rw [hu] at h
      unfold unitAt at hu
      split_ifs at hu <;> simp_all

/-- A member of `insertA m k v` is a member of `m` or is the inserted pair. -/
theorem mem_insertA (m : List (String × NutrientInfo)) (k : String)
    (v : NutrientInfo) (e : String × NutrientInfo) (h : e ∈ insertA m k v) :
    e ∈ m ∨ e = (k, v) := by
  unfold insertA at h
  split_ifs at h
  · obtain ⟨p, hp, he⟩ := List.mem_map.mp h
    by_cases hk : p.1 == k
    · right
      rw [if_pos hk] at he
      exact he.symm
    · left
      rw [if_neg hk] at he
      exact he ▸ hp
  · rcases List.mem_append.mp h with h1 | h1
    · exact Or.inl h1
    · exact Or.inr (List.mem_singleton.mp h1)

/-- Any entry produced by `normalizeEntry` has a unit among the four parsed
unit tokens, and carries `mg` only under a sodium/cholesterol key. -/
theorem normalizeEntry_unit (key vs : String) (serving : ℚ) (k' : String)
    (ni : NutrientInfo) (h : normalizeEntry key vs serving = some (k', ni)) :
    (ni.unit = "g" ∨ ni.unit = "mg" ∨ ni.unit = "kcal" ∨ ni.unit = "cal")
    ∧ (ni.unit = "mg" → lowerStr ni.name = "sodium" ∨ lowerStr ni.name = "cholesterol") := by
  unfold normalizeEntry at h
  rcases hn : firstNumber vs.data with _ | v
  · rw [hn] at h
    simp at h
  rw [hn] at h
  simp only at h
  rcases hu : firstUnit (lowerStr vs).data with _ | u <;>
    rw [hu] at h <;>
    simp only [Option.getD_none, Option.getD_some] at h
  · rw [show ((("g" : String) == "mg")
        && !(lowerStr key == "sodium" || lowerStr key == "cholesterol")) = false by rfl] at h
    simp only [Bool.false_eq_true, if_false] at h
    injection h with h2
    have hni : ni = ⟨key, v, "g", if serving > 0 then v / serving * 100 else v⟩ :=
      ((Prod.mk.injEq _ _ _ _).mp h2).2.symm
    subst hni
    refine ⟨Or.inl rfl, ?_⟩
    intro hx
    exact absurd (show ("g" : String) = "mg" from hx) (by decide)
  · rcases firstUnit_mem _ _ hu with rfl | rfl | rfl | rfl
    · cases hex : (lowerStr key == "sodium" || lowerStr key == "cholesterol")
      · rw [show ((("mg" : String) == "mg")
            && !(lowerStr key == "sodium" || lowerStr key == "cholesterol"))
            = true by rw [hex]; rfl] at h
        simp only [if_true] at h
        injection h with h2
        have hni : ni = ⟨key, v, "g", (if serving > 0 then v / serving * 100 else v) / 1000⟩ :=
          ((Prod.mk.injEq _ _ _ _).mp h2).2.symm
        subst hni
        refine ⟨Or.inl rfl, ?_⟩
        intro hx
        exact absurd (show ("g" : String) = "mg" from hx) (by decide)
      · rw [show ((("mg" : String) == "mg")
            && !(lowerStr key == "sodium" || lowerStr key == "cholesterol"))
            = false by rw [hex]; rfl] at h
        simp only [Bool.false_eq_true, if_false] at h
        injection h with h2
        have hni : ni = ⟨key, v, "mg", if serving > 0 then v / serving * 100 else v⟩ :=
          ((Prod.mk.injEq _ _ _ _).mp h2).2.symm
        subst hni
        refine ⟨Or.inr (Or.inl rfl), ?_⟩
        intro _
        have hex2 := hex
        simp only [Bool.or_eq_true, beq_iff_eq] at hex2
        exact hex2
    · rw [show ((("g" : String) == "mg")
          && !(lowerStr key == "sodium" || lowerStr key == "cholesterol")) = false by rfl] at h
      simp only [Bool.false_eq_true, if_false] at h
      injection h with h2
      have hni : ni = ⟨key, v, "g", if serving > 0 then v / serving * 100 else v⟩ :=
        ((Prod.mk.injEq _ _ _ _).mp h2).2.symm
      subst hni
      exact ⟨Or.inl rfl, fun hx => absurd (show ("g" : String) = "mg" from hx) (by decide)⟩
    · rw [show ((("kcal" : String) == "mg")
          && !(lowerStr key == "sodium" || lowerStr key == "cholesterol")) = false by rfl] at h
      simp only [Bool.false_eq_true, if_false] at h
      injection h with h2
      have hni : ni = ⟨key, v, "kcal", if serving > 0 then v / serving * 100 else v⟩ :=
        ((Prod.mk.injEq _ _ _ _).mp h2).2.symm
      subst hni
      exact ⟨Or.inr (Or.inr (Or.inl rfl)),
        fun hx => absurd (show ("kcal" : String) = "mg" from hx) (by decide)⟩
    · rw [show ((("cal" : String) == "mg")
          && !(lowerStr key == "sodium" || lowerStr key == "cholesterol")) = false by rfl] at h
      simp only [Bool.false_eq_true, if_false] at h
      injection h with h2
      have hni : ni = ⟨key, v, "cal", if serving > 0 then v / serving * 100 else v⟩ :=
        ((Prod.mk.injEq _ _ _ _).mp h2).2.symm
      subst hni
      exact ⟨Or.inr (Or.inr (Or.inr rfl)),
        fun hx => absurd (show ("cal" : String) = "mg" from hx) (by decide)⟩

/-- Every entry of the folded nutrient map either was in the accumulator or
is the output of `normalizeEntry` on some raw entry. -/
theorem normalize_nutrients_mem (raw : List (String × String)) (serving : ℚ)
    (acc : List (String × NutrientInfo)) (e : String × NutrientInfo)
    (h : e ∈ raw.foldl (normStep serving) acc) :
    e ∈ acc ∨ ∃ kv, kv ∈ raw ∧ normalizeEntry kv.1 kv.2 serving = some e := by
  induction raw generalizing acc with
  | nil => exact Or.inl (by simpa using h)
  | cons kv rest ih =>
    rw [List.foldl_cons] at h
    rcases ih _ h with h1 | ⟨kv', hkv', he⟩
    · unfold normStep at h1
      rcases hne : normalizeEntry kv.1 kv.2 serving with _ | p
      · rw [hne] at h1
        exact Or.inl h1
      · rcases p with ⟨k1, v1⟩
        rw [hne] at h1
        rcases mem_insertA _ _ _ _ h1 with h2 | h2
        · exact Or.inl h2
        · exact Or.inr ⟨kv, List.mem_cons_self _ _, by rw [hne, h2]⟩
    · exact Or.inr ⟨kv', List.mem_cons_of_mem _ hkv', he⟩

/-! ### Claim theorems -/

/-- C1 (counterexample): the claim says the accumulated fractional score is
rounded to the nearest integer, but on a product whose base score is 53.75
(protein 12.5 g per 100 g, delta 3.75) `score_product` returns 53 while the
claimed round-then-clamp formula gives 54: Python `int()` truncates. -/
theorem c1_round_counterexample :
    (score_product pFrac).overall_score ≠ claimRoundedScore pFrac := by
  have hsn : scoreNutrients [("protein", ⟨"protein", 5, "g", 25/2⟩)]
      = (15/4, [⟨"Good Protein Source", "positive", 15/4,
          "FDA Nutrition Facts Label Guidelines"⟩], []) := by
    have l1 : lookupA [("protein", (⟨"protein", 5, "g", 25/2⟩ : NutrientInfo))]
        "dietary_fiber" = none := rfl
    have l2 : lookupA [("protein", (⟨"protein", 5, "g", 25/2⟩ : NutrientInfo))]
        "protein" = some ⟨"protein", 5, "g", 25/2⟩ := rfl
    have l3 : lookupA [("protein", (⟨"protein", 5, "g", 25/2⟩ : NutrientInfo))]
        "sodium" = none := rfl
    have l4 : lookupA [("protein", (⟨"protein", 5, "g", 25/2⟩ : NutrientInfo))]
        "saturated_fat" = none := rfl
    have l5 : lookupA [("protein", (⟨"protein", 5, "g", 25/2⟩ : NutrientInfo))]
        "total_sugars" = none := rfl
    norm_num [scoreNutrients, l1, l2, l3, l4, l5, min_def]
  have htr : truncInt (50 + 15/4 : ℚ) = 53 := by
    unfold truncInt
    rw [if_neg (by norm_num), Int.floor_eq_iff]
    norm_num
  have hrd : round (50 + (15/4 : ℚ) + 0) = 54 := by
    rw [round_eq, Int.floor_eq_iff]
    norm_num
  have h53 : (score_product pFrac).overall_score = 53 := by
    simp only [score_product, pFrac, List.isEmpty_cons, List.isEmpty_nil,
      Bool.false_eq_true, if_true, if_false, ite_true, ite_false, hsn, htr]
    norm_num [min_def, max_def]
  have h54 : claimRoundedScore pFrac = 54 := by
    simp only [claimRoundedScore, pFrac, List.isEmpty_cons, List.isEmpty_nil,
      Bool.false_eq_true, if_true, if_false, ite_true, ite_false, hsn, hrd]
    norm_num [min_def, max_def]
  rw [h53, h54]
  decide

/-- C1 (amended): for every product, `overall_score` equals
`clamp(trunc(50 + sum of triggered-rule deltas), 0, 100)` where `trunc`
truncates toward zero (Python `int()`), not round-to-nearest. -/
theorem c1_score_is_clamped_truncation (p : ProductData) :
    (score_product p).overall_score
      = max 0 (min 100 (truncInt (50 + (scoreNutrients p.nutrients).1
          + (scoreIngredients p.ingredients).1))) := by
  rcases hsn : scoreNutrients p.nutrients with ⟨ns, ndr, nw⟩
  rcases hsi : scoreIngredients p.ingredients with ⟨igs, idr, iw⟩
  unfold score_product
  rw [hsn, hsi]
  cases hn : p.nutrients.isEmpty <;> cases hi : p.ingredients.isEmpty <;>
    simp only [hn, hi, Bool.false_eq_true, if_true, if_false, ite_true, ite_false]
  · have hinil : p.ingredients = [] := by simpa using hi
    rw [hinil, scoreIngredients_nil] at hsi
    have higs : igs = 0 := (Prod.ext_iff.mp hsi.symm).1
    subst higs
    simp
  · have hnnil : p.nutrients = [] := by simpa using hn
    rw [hnnil, scoreNutrients_nil] at hsn
    have hns : ns = 0 := (Prod.ext_iff.mp hsn.symm).1
    subst hns
    simp
  · have hinil : p.ingredients = [] := by simpa using hi
    rw [hinil, scoreIngredients_nil] at hsi
    have higs : igs = 0 := (Prod.ext_iff.mp hsi.symm).1
    have hnnil : p.nutrients = [] := by simpa using hn
    rw [hnnil, scoreNutrients_nil] at hsn
    have hns : ns = 0 := (Prod.ext_iff.mp hsn.symm).1
    subst higs hns
    simp

set_option maxHeartbeats 1600000 in
/-- C2: each of the five nutrient rules fires independently exactly when its
per-100g condition holds; the total delta decomposes into the five capped
per-rule deltas, the emitted drivers are the fired rules in table order, and
a warning is emitted exactly when the sodium rule fires.  A missing nutrient
key contributes nothing (the `none` branches of the claim-side deltas). -/
theorem c2_nutrient_rules (n : List (String × NutrientInfo)) :
    (scoreNutrients n).1
      = claimFiberDelta n + claimProteinDelta n + claimSodiumDelta n
        + claimSatFatDelta n + claimSugarsDelta n
    ∧ ((scoreNutrients n).2.1).map (fun d => d.factor)
      = (if claimFiberFiresB n then ["High Fiber Content"] else [])
        ++ (if claimProteinFiresB n then ["Good Protein Source"] else [])
        ++ (if claimSodiumFiresB n then ["High Sodium Content"] else [])
        ++ (if claimSatFatFiresB n then ["High Saturated Fat"] else [])
        ++ (if claimSugarsFiresB n then ["High Sugar Content"] else [])
    ∧ (scoreNutrients n).2.2 = (if claimSodiumFiresB n then [sodiumWarning] else []) := by
  unfold scoreNutrients claimFiberDelta claimProteinDelta claimSodiumDelta
    claimSatFatDelta claimSugarsDelta claimSodiumFiresB claimFiberFiresB
    claimProteinFiresB claimSatFatFiresB claimSugarsFiresB
  rcases hf : lookupA n "dietary_fiber" with _ | nf <;>
  rcases hp : lookupA n "protein" with _ | np <;>
  rcases hs : lookupA n "sodium" with _ | ns <;>
  rcases ha : lookupA n "saturated_fat" with _ | na <;>
  rcases hg : lookupA n "total_sugars" with _ | ng <;>
  simp only [hf, hp, hs, ha, hg, decide_eq_true_eq, ge_iff_le, gt_iff_lt,
    Bool.false_eq_true, if_false, if_true, ite_false, ite_true,
    List.nil_append, List.append_nil] <;>
  (try split_ifs) <;>
  exact ⟨by ring, by simp, by simp⟩

/-- C3: every health score lies in [0, 100] and the band matches the
documented inclusive thresholds 80/65/50/35. -/
theorem c3_bounds_and_bands (p : ProductData) :
    (0 ≤ (score_product p).overall_score ∧ (score_product p).overall_score ≤ 100)
    ∧ ((score_product p).band = "A" ↔ 80 ≤ (score_product p).overall_score)
    ∧ ((score_product p).band = "B" ↔
        65 ≤ (score_product p).overall_score ∧ (score_product p).overall_score < 80)
    ∧ ((score_product p).band = "C" ↔
        50 ≤ (score_product p).overall_score ∧ (score_product p).overall_score < 65)
    ∧ ((score_product p).band = "D" ↔
        35 ≤ (score_product p).overall_score ∧ (score_product p).overall_score < 50)
    ∧ ((score_product p).band = "E" ↔ (score_product p).overall_score < 35) := by
  obtain ⟨q, h1, h2⟩ := score_band_shape p
  rw [h1, h2]
  set s : ℤ := max 0 (min 100 (truncInt q)) with hs
  have hb0 : 0 ≤ s := le_max_left 0 _
  have hb1 : s ≤ 100 := max_le (by norm_num) (min_le_left _ _)
  refine ⟨⟨hb0, hb1⟩, ?_, ?_, ?_, ?_, ?_⟩ <;> split_ifs <;> simp_all <;> omega

/-- C4 (counterexample): the three curated term sets do overlap under
substring matching — "hydrolyzed protein" is matched both by the
ultra-processed set (term "hydrolyzed protein") and by the beneficial set
(term "protein") — and the order of the term-set tests is observable:
testing beneficial before ultra-processed reclassifies that ingredient. -/
theorem c4_overlap_counterexample :
    (matchesAny ULTRA_PROCESSED_MARKERS (lowerStr "hydrolyzed protein") = true
      ∧ matchesAny BENEFICIAL_INGREDIENTS (lowerStr "hydrolyzed protein") = true)
    ∧ classify_ingredients ["hydrolyzed protein"]
        ≠ classifyBeneficialFirst ["hydrolyzed protein"] :=
  ⟨⟨rfl, rfl⟩, by decide⟩

/-- C4 (amended): some ingredient strings are matched by terms from more
than one curated set (e.g. "hydrolyzed protein"), so `classify_ingredients`'
result depends on the fixed priority order: it files "hydrolyzed protein"
under ultra-processed markers, while a variant testing the beneficial set
first files it under beneficial ingredients. -/
theorem c4_order_sensitivity_amended :
    classify_ingredients ["hydrolyzed protein"]
        = ⟨[], ["hydrolyzed protein"], [], []⟩
    ∧ classifyBeneficialFirst ["hydrolyzed protein"]
        = ⟨[], [], ["hydrolyzed protein"], []⟩ :=
  ⟨rfl, rfl⟩

/-- C5: `classify_ingredients` assigns every ingredient to exactly one
category by first-match-wins in the order harmful → ultra-processed →
beneficial → other (stated as filter characterizations of the four output
lists), and on the normalized form of
"Sodium Nitrite, Whole Wheat Flour, Salt" it places "sodium nitrite" in
harmful_additives, "whole wheat flour" in beneficial_ingredients and "salt"
in other. -/
theorem c5_first_match_classification :
    (∀ l : List String,
      (classify_ingredients l).harmful_additives
        = l.filter (fun i => matchesAny HARMFUL_ADDITIVES (lowerStr i))
      ∧ (classify_ingredients l).ultra_processed_markers
        = l.filter (fun i => !matchesAny HARMFUL_ADDITIVES (lowerStr i)
            && matchesAny ULTRA_PROCESSED_MARKERS (lowerStr i))
      ∧ (classify_ingredients l).beneficial_ingredients
        = l.filter (fun i => !matchesAny HARMFUL_ADDITIVES (lowerStr i)
            && !matchesAny ULTRA_PROCESSED_MARKERS (lowerStr i)
            && matchesAny BENEFICIAL_INGREDIENTS (lowerStr i))
      ∧ (classify_ingredients l).other
        = l.filter (fun i => !matchesAny HARMFUL_ADDITIVES (lowerStr i)
            && !matchesAny ULTRA_PROCESSED_MARKERS (lowerStr i)
            && !matchesAny BENEFICIAL_INGREDIENTS (lowerStr i)))
    ∧ classify_ingredients
        (normalize_ingredient_list "Sodium Nitrite, Whole Wheat Flour, Salt")
        = ⟨["sodium nitrite"], [], ["whole wheat flour"], ["salt"]⟩ := by
  refine ⟨?_, rfl⟩
  intro l
  induction l with
  | nil => simp [classify_ingredients]
  | cons i rest ih =>
    obtain ⟨ih1, ih2, ih3, ih4⟩ := ih
    cases hh : matchesAny HARMFUL_ADDITIVES (lowerStr i) <;>
      cases hu : matchesAny ULTRA_PROCESSED_MARKERS (lowerStr i) <;>
        cases hb : matchesAny BENEFICIAL_INGREDIENTS (lowerStr i) <;>
          simp [classify_ingredients, hh, hu, hb, ih1, ih2, ih3, ih4, List.filter]

/-- C6: `normalize_nutrients` rescales a parsed value `v` to
`per_100g = v / serving * 100` when the serving size is positive and keeps
`per_100g = v` otherwise, then converts mg to g (divide by 1000) unless the
key is sodium or cholesterol; in particular sodium 300mg at a 50 g serving
gives 600 (mg), and total fat 2000mg at a 50 g serving gives 4 (g). -/
theorem c6_rescale_and_unit_conversion :
    (∀ (key value_str : String) (serving v : ℚ),
      firstNumber value_str.data = some v →
      normalizeEntry key value_str serving =
        (let u := (firstUnit (lowerStr value_str).data).getD "g"
         let per0 : ℚ := if serving > 0 then v / serving * 100 else v
         if u = "mg" ∧ ¬(lowerStr key = "sodium" ∨ lowerStr key = "cholesterol") then
           some (normKey key, ⟨key, v, "g", per0 / 1000⟩)
         else some (normKey key, ⟨key, v, u, per0⟩)))
    ∧ normalize_nutrients [("sodium", "300mg")] 50
        = [("sodium", ⟨"sodium", 300, "mg", 600⟩)]
    ∧ normalize_nutrients [("total_fat", "2000mg")] 50
        = [("total_fat", ⟨"total_fat", 2000, "g", 4⟩)] := by
  refine ⟨?_, ?_, ?_⟩
  · intro key value_str serving v h
    simp only [normalizeEntry, h]
    split_ifs with h1 h2 <;> simp_all
  · have e : normalize_nutrients [("sodium", "300mg")] 50
        = [("sodium", ⟨"sodium", 300, "mg",
            if (50:ℚ) > 0 then 300 / 50 * 100 else 300⟩)] := rfl
    rw [e]
    norm_num
  · have e : normalize_nutrients [("total_fat", "2000mg")] 50
        = [("total_fat", ⟨"total_fat", 2000, "g",
            (if (50:ℚ) > 0 then 2000 / 50 * 100 else 2000) / 1000⟩)] := rfl
    rw [e]
    norm_num

/-- C6 (witness): the general rescale formula applied to the concrete entry
`sodium ↦ "300mg"` with serving size 50. -/
theorem c6_rescale_witness :
    firstNumber ("300mg" : String).data = some 300
    ∧ normalizeEntry "sodium" "300mg" 50 =
        (let u := (firstUnit (lowerStr "300mg").data).getD "g"
         let per0 : ℚ := if (50:ℚ) > 0 then 300 / 50 * 100 else 300
         if u = "mg" ∧ ¬(lowerStr "sodium" = "sodium" ∨ lowerStr "sodium" = "cholesterol") then
           some (normKey "sodium", ⟨"sodium", 300, "g", per0 / 1000⟩)
         else some (normKey "sodium", ⟨"sodium", 300, "mg", per0⟩)) := by
  have h : firstNumber ("300mg" : String).data = some 300 := rfl
  exact ⟨h, (c6_rescale_and_unit_conversion).1 "sodium" "300mg" 50 300 h⟩

/-- C7 (counterexample): the claim restricts units to {g, mg, kcal}, but an
input such as "100cal" parses with unit token "cal", which survives to the
output unchanged (it is not mg, so no conversion applies). -/
theorem c7_unit_counterexample :
    ((normalize_nutrients [("calories", "100cal")] 100).map (fun e => e.2.unit)
        = ["cal"])
    ∧ ¬("cal" = "g" ∨ "cal" = "mg" ∨ "cal" = "kcal") :=
  ⟨rfl, by decide⟩

/-- C7 (amended): every `NutrientInfo` produced by `normalize_nutrients` has
unit in {g, mg, kcal, cal} (the four tokens the unit regex can yield), and
carries mg only when the lower-cased key is sodium or cholesterol; all other
entries are in g, kcal, or cal. -/
theorem c7_unit_invariant_amended :
    ∀ (raw : List (String × String)) (serving : ℚ),
      ∀ e ∈ normalize_nutrients raw serving,
        (e.2.unit = "g" ∨ e.2.unit = "mg" ∨ e.2.unit = "kcal" ∨ e.2.unit = "cal")
        ∧ (e.2.unit = "mg" →
            lowerStr e.2.name = "sodium" ∨ lowerStr e.2.name = "cholesterol") := by
  intro raw serving e h
  rcases normalize_nutrients_mem raw serving [] e
      (by simpa [normalize_nutrients] using h) with h1 | ⟨kv, _, he⟩
  · simp at h1
  · exact normalizeEntry_unit kv.1 kv.2 serving e.1 e.2 (by simpa using he)

/-- C7 (witness): the amended invariant applied to the concrete entry
produced from `calories ↦ "100cal"`. -/
theorem c7_unit_invariant_witness :
    (("calories", (⟨"calories", 100, "cal",
        if (100:ℚ) > 0 then 100 / 100 * 100 else 100⟩ : NutrientInfo))
      ∈ normalize_nutrients [("calories", "100cal")] 100)
    ∧ (("cal" = "g" ∨ "cal" = "mg" ∨ "cal" = "kcal" ∨ "cal" = "cal")
        ∧ ("cal" = "mg" →
            lowerStr "calories" = "sodium" ∨ lowerStr "calories" = "cholesterol")) := by
  have e : normalize_nutrients [("calories", "100cal")] 100
      = [("calories", (⟨"calories", 100, "cal",
          if (100:ℚ) > 0 then 100 / 100 * 100 else 100⟩ : NutrientInfo))] := rfl
  have hm : ("calories", (⟨"calories", 100, "cal",
      if (100:ℚ) > 0 then 100 / 100 * 100 else 100⟩ : NutrientInfo))
      ∈ normalize_nutrients [("calories", "100cal")] 100 := by
    rw [e]
    exact List.mem_singleton.mpr rfl
  exact ⟨hm, c7_unit_invariant_amended [("calories", "100cal")] 100 _ hm⟩

/-- C8: `normalize_nutrients` is total; an entry whose value string contains
no digit is skipped (the map of the remaining entries is returned unchanged),
and when the value string has no unit token the unit defaults to g. -/
theorem c8_skip_and_default :
    (∀ (key value_str : String) (raw : List (String × String)) (serving : ℚ),
      firstNumber value_str.data = none →
      normalizeEntry key value_str serving = none
      ∧ normalize_nutrients ((key, value_str) :: raw) serving
          = normalize_nutrients raw serving)
    ∧ (∀ (key value_str : String) (serving v : ℚ),
      firstUnit (lowerStr value_str).data = none →
      firstNumber value_str.data = some v →
      ∃ ni, normalizeEntry key value_str serving = some (normKey key, ni)
        ∧ ni.unit = "g") := by
  constructor
  · intro key value_str raw serving h
    have h1 : normalizeEntry key value_str serving = none := by
      simp only [normalizeEntry, h]
    exact ⟨h1, by simp [normalize_nutrients, normStep, h1]⟩
  · intro key value_str serving v hu hn
    simp only [normalizeEntry, hn, hu, Option.getD_none]
    split_ifs <;> exact ⟨_, rfl, rfl⟩

/-- C8 (witness): "abc" has no extractable number and is skipped; "300" has
a number but no unit token, so the unit defaults to g. -/
theorem c8_skip_and_default_witness :
    (firstNumber ("abc" : String).data = none
      ∧ normalizeEntry "x" "abc" 100 = none
      ∧ normalize_nutrients [("x", "abc")] 100 = normalize_nutrients [] 100)
    ∧ (firstUnit (lowerStr "300").data = none
      ∧ firstNumber ("300" : String).data = some 300
      ∧ ∃ ni, normalizeEntry "total_fat" "300" 100 = some (normKey "total_fat", ni)
          ∧ ni.unit = "g") := by
  have h1 : firstNumber ("abc" : String).data = none := rfl
  have h2 : firstUnit (lowerStr "300").data = none := rfl
  have h3 : firstNumber ("300" : String).data = some 300 := rfl
  exact ⟨⟨h1, (c8_skip_and_default.1 "x" "abc" [] 100 h1).1,
      (c8_skip_and_default.1 "x" "abc" [] 100 h1).2⟩,
    ⟨h2, h3, c8_skip_and_default.2 "total_fat" "300" 100 300 h2 h3⟩⟩

/-- C9: `normalize_ingredient_list` returns `[]` on empty (falsy) input, every
kept token is non-empty with length at least 2, and on a concrete input it
splits on both separators, lower-cases, strips the parenthetical, collapses
whitespace, and drops the single-character token. -/
theorem c9_normalize_ingredient_list_spec :
    normalize_ingredient_list "" = []
    ∧ (∀ raw t, t ∈ normalize_ingredient_list raw → t ≠ "" ∧ 2 ≤ t.length)
    ∧ normalize_ingredient_list "Whole Wheat Flour (organic); Salt,  X, Sugar"
        = ["whole wheat flour", "salt", "sugar"] := by
  refine ⟨rfl, ?_, rfl⟩
  intro raw t ht
  unfold normalize_ingredient_list at ht
  split at ht
  · simp at ht
  · have hp := (List.mem_filter.mp ht).2
    simp at hp
    exact ⟨hp.1, hp.2⟩

/-- C9 (witness): the token-shape clause applied to the token "salt" of the
concrete input. -/
theorem c9_normalize_ingredient_list_witness :
    ("salt" ∈ normalize_ingredient_list "Whole Wheat Flour (organic); Salt,  X, Sugar")
    ∧ ("salt" ≠ "" ∧ 2 ≤ ("salt" : String).length) := by
  have hm : "salt" ∈ normalize_ingredient_list
      "Whole Wheat Flour (organic); Salt,  X, Sugar" := by decide
  exact ⟨hm, c9_normalize_ingredient_list_spec.2.1 _ "salt" hm⟩

/-- C10: whenever the ultra-processed rule fires (marker count > 3), the
driver it appends carries a score delta of exactly −8, because
min(8, 2·count) = 8 for every count ≥ 4. -/
theorem c10_ultra_processed_constant_delta (ings : List String)
    (h : 3 < (classify_ingredients ings).ultra_processed_markers.length) :
    ∃ d ∈ (scoreIngredients ings).2.1,
      d.factor = "Highly Processed Food" ∧ d.score_delta = -8 := by
  have h8 : (8:ℚ) ≤ ((classify_ingredients ings).ultra_processed_markers.length : ℚ) * 2 := by
    have h4 : (4:ℚ) ≤ ((classify_ingredients ings).ultra_processed_markers.length : ℚ) := by
      exact_mod_cast h
    linarith
  have hmin : min (8:ℚ)
      (((classify_ingredients ings).ultra_processed_markers.length : ℚ) * 2) = 8 :=
    min_eq_left h8
  unfold scoreIngredients
  dsimp only
  split_ifs with h1 h2 h3 <;> try omega
  all_goals simp_all [hmin]

/-- C10 (witness): a list with four ultra-processed markers triggers the rule
with delta −8. -/
theorem c10_ultra_processed_witness :
    3 < (classify_ingredients ultraIngredients).ultra_processed_markers.length
    ∧ ∃ d ∈ (scoreIngredients ultraIngredients).2.1,
        d.factor = "Highly Processed Food" ∧ d.score_delta = -8 :=
  ⟨by decide, c10_ultra_processed_constant_delta ultraIngredients (by decide)⟩

end FoodApp
